import Mathlib

/-!
Verification of the TPU training coordination core (`lib/training/tpu.py`).

The embedding models tensors as records of shape/device/dtype metadata plus a
list of exact rational values (the floating-point operations exercised by the
claims — copies, elementwise additions, sums of small integer-valued losses and
divisions by small integers — are exact in binary floating point, so ℚ is a
faithful carrier for them).  Shared multiprocessing state (`mp.Value` cells and
`mp.Event` flags) is a `Stats` record, mutated by explicit state-passing
functions that mirror the Python statements one for one.
-/

/-- A tensor: shape/device/dtype metadata plus its flattened values.
Devices and dtypes are identified by numeric codes. -/
structure Tensor where
  shape : List Nat
  device : Nat
  dtype : Nat
  data : List ℚ
  deriving DecidableEq, Repr

/-- The ways `TPUSynchronizer._assign` can raise.
`lengthMismatch` is the `assert source_tensor is not None or target_tensor is
not None` with message "Source and target length must match exactly";
`shapeMismatch`/`deviceMismatch`/`dtypeMismatch` are the three strict asserts,
recorded with the loop index at which they fire; `noneAccess` is the
AttributeError/TypeError raised when a `None` produced by `zip_longest` is used
as a tensor (attribute access or `add_`/`copy_` operand), again with the loop
index. -/
inductive AssignError where
  | lengthMismatch
  | shapeMismatch (i : Nat)
  | deviceMismatch (i : Nat)
  | dtypeMismatch (i : Nat)
  | noneAccess (i : Nat)
  deriving DecidableEq, Repr

/-- `target_tensor.add_(source_tensor)`: elementwise in-place addition.
(The tensors this is applied to in the claims have equal shapes, so the
truncating `zipWith` coincides with torch's semantics.) -/
def addInto (t s : Tensor) : Tensor :=
  { t with data := t.data.zipWith (· + ·) s.data }

/-- `target_tensor.copy_(source_tensor)`: in-place overwrite of the target's
values; the target keeps its own shape/device/dtype metadata (torch casts the
copied values to the target dtype). -/
def overwriteInto (t s : Tensor) : Tensor :=
  { t with data := s.data }

/-- One iteration of the `for source_tensor, target_tensor in zip_longest(...)`
loop body of `TPUSynchronizer._assign`, at loop index `i`.  Returns the updated
target tensor, or the error raised. -/
def assignStep (add strict : Bool) (i : Nat) (os ot : Option Tensor) :
    Except AssignError Tensor :=
  if os = none ∧ ot = none then
    .error .lengthMismatch
  else
    match os, ot with
    | some s, some t =>
      if strict ∧ s.shape ≠ t.shape then .error (.shapeMismatch i)
      else if strict ∧ s.device ≠ t.device then .error (.deviceMismatch i)
      else if strict ∧ s.dtype ≠ t.dtype then .error (.dtypeMismatch i)
      else if add then .ok (addInto t s)
      else .ok (overwriteInto t s)
    | _, _ => .error (.noneAccess i)

/-- `itertools.zip_longest` with `None` fill. -/
def zipLongest : List α → List β → List (Option α × Option β)
  | [], ys => ys.map (fun y => (none, some y))
  | x :: xs, [] => (some x, none) :: zipLongest xs []
  | x :: xs, y :: ys => (some x, some y) :: zipLongest xs ys

/-- The `_assign` loop over the `zip_longest` pairs, starting at loop index
`i`.  Returns the final state of the target tensors (Python mutates them in
place, so tensors before a raise are updated and the rest keep their old
values) together with the error raised, if any. -/
def assignGo (add strict : Bool) :
    Nat → List (Option Tensor × Option Tensor) → List Tensor × Option AssignError
  | _, [] => ([], none)
  | i, (s, t) :: rest =>
    match assignStep add strict i s t with
    | .error e => ((t :: rest.map Prod.snd).reduceOption, some e)
    | .ok t' =>
      let r := assignGo add strict (i + 1) rest
      (t' :: r.1, r.2)

/-- `TPUSynchronizer._assign(source, target, add, strict)`.  Returns the final
state of the target tensor list and the error raised, if any. -/
def tensorAssign (source target : List Tensor) (add strict : Bool) :
    List Tensor × Option AssignError :=
  assignGo add strict 0 (zipLongest source target)

/-- `xm.send_cpu_data_to_device(tensors, device)`: moves tensors to the given
device, leaving values and other metadata unchanged. -/
def sendCpuDataToDevice (dev : Nat) (ts : List Tensor) : List Tensor :=
  ts.map fun t => { t with device := dev }

/-- `TPUSynchronizer.send_params_to_device(replica)`: moves the master
parameters to the XLA device, then `_assign(source=master_params,
target=replica_params, add=False)` — note `strict` is left at its default
`False`. -/
def send_params_to_device (xlaDev : Nat) (masterParams replicaParams : List Tensor) :
    List Tensor × Option AssignError :=
  tensorAssign (sendCpuDataToDevice xlaDev masterParams) replicaParams false false

/-- The reduction step of `TPUSynchronizer.aggregate_grads_on_host`:
`xm.all_reduce(REDUCE_SUM, replica_grads, scale=1.0)` sums the per-worker
gradient tensors elementwise across all workers. -/
def allReduceSum (workerGrads : List (List Tensor)) : List Tensor :=
  match workerGrads with
  | [] => []
  | g :: gs => gs.foldl (fun acc h => List.zipWith addInto acc h) g

/-- `TPUSynchronizer.aggregate_grads_on_host(replica, add=...)`: all-reduce the
replica gradients, then (on ordinal 0 only) `_assign(source=reduced,
target=master_grads, add=add)` — `strict` again left at its default `False`. -/
def aggregate_grads_on_host (workerGrads : List (List Tensor))
    (masterGrads : List Tensor) (add : Bool) : List Tensor × Option AssignError :=
  tensorAssign (allReduceSum workerGrads) masterGrads add false

/-- The shared coordination state of `TPUManager`: the four `mp.Value` cells
(`should_load_parameters`, `gradients_accumulated`, `loss_numerator`,
`loss_denominator`) and the two `mp.Event` flags. -/
structure Stats where
  shouldLoadParameters : Bool
  gradientsAccumulated : Int
  lossNumerator : ℚ
  lossDenominator : ℚ
  stepTriggered : Bool
  stepFinished : Bool
  deriving DecidableEq, Repr

/-- The freshly constructed shared state: `mp.Value(c_bool, False)`, counters
zero, both events cleared. -/
def initialStats : Stats :=
  { shouldLoadParameters := false
    gradientsAccumulated := 0
    lossNumerator := 0
    lossDenominator := 0
    stepTriggered := false
    stepFinished := false }

/-- The first three statements of `TPUManager._mark_step_finished`: the
statistics updates performed before the finished signal is touched. -/
def markStepFinishedPre (batchSize nprocs gradAccumulationSteps : Nat)
    (loss : ℚ) (s : Stats) : Stats :=
  { s with
    gradientsAccumulated :=
      s.gradientsAccumulated + (batchSize : Int) * (nprocs : Int) * (gradAccumulationSteps : Int)
    lossNumerator := s.lossNumerator + loss
    lossDenominator := s.lossDenominator + 1 }

/-- `TPUManager._mark_step_finished(loss)`: the statistics updates, then
`self.step_finished.set()` as the final statement. -/
def mark_step_finished (batchSize nprocs gradAccumulationSteps : Nat)
    (loss : ℚ) (s : Stats) : Stats :=
  { markStepFinishedPre batchSize nprocs gradAccumulationSteps loss s with
    stepFinished := true }

/-- The prefix of `TPUManager.step()` before the wait: zero the three
statistics cells, clear `step_finished`, set `step_triggered`. -/
def stepReset (s : Stats) : Stats :=
  { s with
    lossNumerator := 0
    lossDenominator := 0
    gradientsAccumulated := 0
    stepFinished := false
    stepTriggered := true }

/-- Errors the coordinator-side code can raise. `zeroDivisionError` is
Python's float division by `0.0`. -/
inductive PyError where
  | zeroDivisionError
  deriving DecidableEq, Repr

/-- `TPUManager.step()`: reset the statistics, clear/set the events, block on
`step_finished`, then return `loss_numerator / loss_denominator` and
`gradients_accumulated`.  The workers' activity between the trigger and the
finished signal is the state transformation `work` (under the barrier
protocol, exactly the leader's `_mark_step_finished` touches the shared
statistics).  A zero denominator raises ZeroDivisionError. -/
def stepCall (work : Stats → Stats) (s : Stats) : Except PyError (ℚ × Int) :=
  let s' := work (stepReset s)
  if s'.lossDenominator = 0 then .error .zeroDivisionError
  else .ok (s'.lossNumerator / s'.lossDenominator, s'.gradientsAccumulated)

/-- The loss accumulation loop of `TPUManager.runner` for one step: `loss = 0`;
for `i` in `range(grad_accumulation_steps)`: `loss += batchLosses i /
(grad_accumulation_steps * nprocs)`. -/
def computeLoss (gradAccumulationSteps nprocs : Nat) (batchLosses : Nat → ℚ) : ℚ :=
  (List.range gradAccumulationSteps).foldl
    (fun acc i => acc + batchLosses i / ((gradAccumulationSteps : ℚ) * (nprocs : ℚ))) 0

/-- `xm.all_reduce(REDUCE_SUM, loss, scale=1.0)` over the per-worker losses:
worker `w`'s raw loss for microbatch `i` is `batchLosses w i`. -/
def allReduceLoss (nprocs gradAccumulationSteps : Nat) (batchLosses : Nat → Nat → ℚ) : ℚ :=
  ((List.range nprocs).map
    (fun w => computeLoss gradAccumulationSteps nprocs (batchLosses w))).sum

/-- The host-side state a `TPUManager` owns: the shared statistics plus the
canonical master-model parameters and their gradient tensors (held by the
`TPUSynchronizer`). -/
structure HostState where
  stats : Stats
  masterParams : List Tensor
  masterGrads : List Tensor
  deriving DecidableEq, Repr

/-- `TPUManager.update_model_parameters(new_host_parameters)`: its whole body
is `self.should_load_parameters.value = True`. -/
def update_model_parameters (newHostParameters : List Tensor) (st : HostState) : HostState :=
  { st with stats := { st.stats with shouldLoadParameters := true } }

/-- The parameter-reload check at the top of each step of `TPUManager.runner`:
`if bool(self.should_load_parameters.value):
self._synchronizer.send_params_to_device(model)`.  Returns the (unchanged)
host state and the replica parameters after the step.  The flag is read but
never written here. -/
def runnerReloadPhase (xlaDev : Nat) (st : HostState) (replicaParams : List Tensor) :
    HostState × List Tensor :=
  if st.stats.shouldLoadParameters then
    (st, (send_params_to_device xlaDev st.masterParams replicaParams).1)
  else
    (st, replicaParams)

/-- Capacity of `mp.Queue(maxsize)`: a maxsize of zero (or below, for Python
ints) gives an unbounded queue; otherwise the queue is bounded at maxsize. -/
def queueCapacity (maxsize : Nat) : Option Nat :=
  if maxsize = 0 then none else some maxsize

/-- The state built by `TPUManager.__init__`: configuration fields, the
capacities of the created minibatch queues, and the shared statistics. -/
structure TPUManagerState where
  nprocs : Nat
  prefetch : Nat
  batchSize : Nat
  gradAccumulationSteps : Nat
  seedBase : Nat
  minibatchQueues : List (Option Nat)
  stats : Stats
  deriving DecidableEq, Repr

/-- `TPUManager.__init__`: stores the configuration, creates
`[mp.Queue(prefetch) for _ in range(nprocs)]`, submits the distributor thread,
and initialises the shared cells/events.  The body contains no validation and
no raise; it returns for every argument combination. -/
def tpuManagerInit (nprocs prefetch batchSize gradAccumulationSteps seedBase : Nat) :
    TPUManagerState :=
  { nprocs := nprocs
    prefetch := prefetch
    batchSize := batchSize
    gradAccumulationSteps := gradAccumulationSteps
    seedBase := seedBase
    minibatchQueues := List.replicate nprocs (queueCapacity prefetch)
    stats := initialStats }

/-- `self.minibatch_queues[idx].put(x)`: append `x` to queue `idx`. -/
def putItem (queues : List (List α)) (idx : Nat) (x : α) : List (List α) :=
  queues.set idx (queues.getD idx [] ++ [x])

/-- The distributor thread `_thread_method`: `for i, batch in
enumerate(self._dataset): self.minibatch_queues[i % self.nprocs].put(batch)`,
started from empty queues.  Returns the queue contents after the source is
exhausted. -/
def distributorRun (nprocs : Nat) (items : List α) : List (List α) :=
  items.enum.foldl (fun qs p => putItem qs (p.1 % nprocs) p.2) (List.replicate nprocs [])

/-- Spec-side predicate: a source/target pair satisfies the strict checks. -/
def strictOk (s t : Tensor) : Prop :=
  s.shape = t.shape ∧ s.device = t.device ∧ s.dtype = t.dtype

instance (s t : Tensor) : Decidable (strictOk s t) := by
  unfold strictOk; infer_instance

/-- Spec-side: the error the first strict assert to fail on a pair produces,
at loop index `i` (shape is checked first, then device, then dtype). -/
def firstKind (s t : Tensor) (i : Nat) : AssignError :=
  if s.shape ≠ t.shape then .shapeMismatch i
  else if s.device ≠ t.device then .deviceMismatch i
  else .dtypeMismatch i

/-- Spec-side: the first index at which two equal-length tensor lists violate
the strict checks, with the offending pair. -/
def firstMismatch : List Tensor → List Tensor → Option (Nat × Tensor × Tensor)
  | s :: ss, t :: ts =>
    if strictOk s t then
      (firstMismatch ss ts).map (fun p => (p.1 + 1, p.2))
    else
      some (0, s, t)
  | _, _ => none

/-- Whether an `_assign` outcome is the length-mismatch assertion. -/
def isLengthMismatch : Option AssignError → Bool
  | some .lengthMismatch => true
  | _ => false

/-- Sample tensors for concrete instances. -/
def sampleT0 : Tensor := ⟨[2], 0, 0, [1, 2]⟩

def sampleT1 : Tensor := ⟨[2], 0, 0, [3, 4]⟩

def sampleT2 : Tensor := ⟨[2], 0, 0, [5, 6]⟩

/-- A master parameter tensor in 32-bit floating point (dtype code 0). -/
def sampleMasterF32 : Tensor := ⟨[2], 0, 0, [1, 2]⟩

/-- A replica parameter tensor of the same shape in 64-bit floating point
(dtype code 1), on device 1. -/
def sampleReplicaF64 : Tensor := ⟨[2], 1, 1, [0, 0]⟩

/-- A host state in which a parameter reload has been requested. -/
def sampleHostLoaded : HostState :=
  { stats := { initialStats with shouldLoadParameters := true }
    masterParams := [sampleMasterF32]
    masterGrads := [sampleT0] }

/-- C6: the leader's report `_mark_step_finished` adds exactly
`batchSize * nprocs * gradAccumulationSteps` to `gradients_accumulated`, adds
the reduced loss to `loss_numerator`, increments `loss_denominator` by exactly
one, and only then (after all statistics writes) sets the finished signal. -/
theorem mark_step_finished_spec (b p k : Nat) (loss : ℚ) (s : Stats) :
    (mark_step_finished b p k loss s).gradientsAccumulated
        = s.gradientsAccumulated + (b : Int) * (p : Int) * (k : Int)
    ∧ (mark_step_finished b p k loss s).lossNumerator = s.lossNumerator + loss
    ∧ (mark_step_finished b p k loss s).lossDenominator = s.lossDenominator + 1
    ∧ (mark_step_finished b p k loss s).stepFinished = true
    ∧ (markStepFinishedPre b p k loss s).stepFinished = s.stepFinished
    ∧ (markStepFinishedPre b p k loss s).gradientsAccumulated
        = (mark_step_finished b p k loss s).gradientsAccumulated
    ∧ (markStepFinishedPre b p k loss s).lossNumerator
        = (mark_step_finished b p k loss s).lossNumerator
    ∧ (markStepFinishedPre b p k loss s).lossDenominator
        = (mark_step_finished b p k loss s).lossDenominator :=
  ⟨rfl, rfl, rfl, rfl, rfl, rfl, rfl, rfl⟩

/-- C7: `step()` resets the statistics, signals the trigger, waits, and
returns `(loss_numerator / loss_denominator, gradients_accumulated)`; with no
worker report it raises ZeroDivisionError, and in the scenario `nprocs = 1`,
`gradAccumulationSteps = 1` with every batch loss equal to `2`, one call
returns a mean loss of `2` and `gradients_accumulated = batchSize`, whatever
the prior state was. -/
theorem step_call_spec (s : Stats) (b : Nat) :
    (stepReset s).lossNumerator = 0
    ∧ (stepReset s).lossDenominator = 0
    ∧ (stepReset s).gradientsAccumulated = 0
    ∧ (stepReset s).stepFinished = false
    ∧ (stepReset s).stepTriggered = true
    ∧ stepCall (fun t => t) s = .error .zeroDivisionError
    ∧ stepCall (mark_step_finished b 1 1 (allReduceLoss 1 1 (fun _ _ => 2))) s
        = .ok (2, (b : Int)) := by
  refine ⟨rfl, rfl, rfl, rfl, rfl, ?_, ?_⟩
  · simp [stepCall, stepReset]
  · have hr : allReduceLoss 1 1 (fun _ _ => 2) = 2 := by
      norm_num [allReduceLoss, computeLoss, List.range_succ]
    rw [hr]
    simp [stepCall, stepReset, mark_step_finished, markStepFinishedPre]

/-- C9: `update_model_parameters` never reads its argument (two calls with
different arguments act identically), leaves the master parameters, the master
gradients and every other statistics field unchanged, and its only effect is
setting `should_load_parameters` to true. -/
theorem update_model_parameters_frame (a b : List Tensor) (st : HostState) :
    update_model_parameters a st = update_model_parameters b st
    ∧ (update_model_parameters a st).masterParams = st.masterParams
    ∧ (update_model_parameters a st).masterGrads = st.masterGrads
    ∧ (update_model_parameters a st).stats.shouldLoadParameters = true
    ∧ (update_model_parameters a st).stats.gradientsAccumulated
        = st.stats.gradientsAccumulated
    ∧ (update_model_parameters a st).stats.lossNumerator = st.stats.lossNumerator
    ∧ (update_model_parameters a st).stats.lossDenominator = st.stats.lossDenominator
    ∧ (update_model_parameters a st).stats.stepTriggered = st.stats.stepTriggered
    ∧ (update_model_parameters a st).stats.stepFinished = st.stats.stepFinished :=
  ⟨rfl, rfl, rfl, rfl, rfl, rfl, rfl, rfl, rfl⟩

/-- C10: no modelled operation clears `should_load_parameters`: the reset in
`step()` and the leader report preserve it, the worker's reload path leaves
the whole host state unchanged, `update_model_parameters` sets it — and
whenever the flag is set, the worker's per-step reload path pushes the host
parameters to the replica. -/
theorem should_load_parameters_monotone (s : Stats) (b p k : Nat) (loss : ℚ)
    (d : Nat) (st : HostState) (r a : List Tensor) :
    (stepReset s).shouldLoadParameters = s.shouldLoadParameters
    ∧ (mark_step_finished b p k loss s).shouldLoadParameters = s.shouldLoadParameters
    ∧ (runnerReloadPhase d st r).1 = st
    ∧ (update_model_parameters a st).stats.shouldLoadParameters = true
    ∧ (st.stats.shouldLoadParameters = true →
        (runnerReloadPhase d st r).2 = (send_params_to_device d st.masterParams r).1) := by
  refine ⟨rfl, rfl, ?_, rfl, ?_⟩
  · by_cases h : st.stats.shouldLoadParameters <;> simp [runnerReloadPhase, h]
  · intro h; simp [runnerReloadPhase, h]

/-- Witness for C10 at a concrete host state whose flag is set. -/
theorem should_load_parameters_monotone_witness :
    (runnerReloadPhase 1 sampleHostLoaded [sampleReplicaF64]).2
      = (send_params_to_device 1 sampleHostLoaded.masterParams [sampleReplicaF64]).1 :=
  (should_load_parameters_monotone initialStats 1 1 1 0 1 sampleHostLoaded
    [sampleReplicaF64] []).2.2.2.2 rfl

/-- Counterexample to C5: the constructor performs no validation — with
`nprocs = 0` it returns normally having created zero queues, and with
`prefetch = 0` it returns normally having created an unbounded (not
capacity-`prefetch`) queue. -/
theorem tpu_manager_init_no_validation :
    (tpuManagerInit 0 16 1 1 42).minibatchQueues = []
    ∧ (tpuManagerInit 1 0 1 1 42).minibatchQueues = [none] := by
  constructor <;> rfl

/-- C5 (amended): the constructor accepts every argument combination without
validation; it creates exactly `nprocs` queues, each of capacity `prefetch`
(bounded exactly when `prefetch ≥ 1`), and initialises the shared statistics
to zero with both events cleared and the reload flag down. -/
theorem tpu_manager_init_amended (nprocs prefetch b k sd : Nat) :
    (tpuManagerInit nprocs prefetch b k sd).minibatchQueues.length = nprocs
    ∧ (∀ c ∈ (tpuManagerInit nprocs prefetch b k sd).minibatchQueues,
        c = queueCapacity prefetch)
    ∧ (1 ≤ prefetch → queueCapacity prefetch = some prefetch)
    ∧ (tpuManagerInit nprocs prefetch b k sd).stats = initialStats
    ∧ initialStats.shouldLoadParameters = false
    ∧ initialStats.gradientsAccumulated = 0
    ∧ initialStats.lossNumerator = 0
    ∧ initialStats.lossDenominator = 0
    ∧ initialStats.stepTriggered = false
    ∧ initialStats.stepFinished = false := by
  refine ⟨by simp [tpuManagerInit], ?_, ?_, rfl, rfl, rfl, rfl, rfl, rfl, rfl⟩
  · intro c hc
    exact List.eq_of_mem_replicate hc
  · intro h
    unfold queueCapacity
    rw [if_neg (by omega)]

/-- Witness for C5 (amended) at concrete constructor arguments. -/
theorem tpu_manager_init_amended_witness :
    (tpuManagerInit 2 16 1 1 42).minibatchQueues.length = 2
    ∧ queueCapacity 16 = some 16 :=
  ⟨(tpu_manager_init_amended 2 16 1 1 42).1,
   (tpu_manager_init_amended 2 16 1 1 42).2.2.1 (by decide)⟩

/-- Counterexample to C4: `send_params_to_device` calls `_assign` with
`strict` at its default `False`, so a dtype (and device) mismatch between the
master parameter and the replica parameter is not rejected: the copy succeeds
with no error instead of failing with a strict-assign mismatch. -/
theorem send_params_ignores_dtype_mismatch :
    send_params_to_device 1 [sampleMasterF32] [sampleReplicaF64]
      = ([⟨[2], 1, 1, [1, 2]⟩], none)
    ∧ sampleMasterF32.dtype = 0 ∧ sampleReplicaF64.dtype = 1 := by
  refine ⟨by decide, rfl, rfl⟩

lemma assignStep_none_right (add strict : Bool) (n : Nat) (x : Tensor) :
    assignStep add strict n (some x) none = .error (.noneAccess n) := by
  simp [assignStep]

lemma assignStep_none_left (add strict : Bool) (n : Nat) (y : Tensor) :
    assignStep add strict n none (some y) = .error (.noneAccess n) := by
  simp [assignStep]

lemma assignStep_some_ne_length (add strict : Bool) (n : Nat) (x y : Tensor) :
    assignStep add strict n (some x) (some y) ≠ .error .lengthMismatch := by
  simp only [assignStep]
  split_ifs <;> simp_all

lemma assignStep_nonstrict (add : Bool) (n : Nat) (x y : Tensor) :
    assignStep add false n (some x) (some y)
      = .ok (if add then addInto y x else overwriteInto y x) := by
  cases add <;> simp [assignStep]

lemma assignStep_strict_ok (add : Bool) (n : Nat) (x y : Tensor) (h : strictOk x y) :
    assignStep add true n (some x) (some y)
      = .ok (if add then addInto y x else overwriteInto y x) := by
  obtain ⟨h1, h2, h3⟩ := h
  cases add <;> simp [assignStep, h1, h2, h3]

lemma assignStep_strict_err (add : Bool) (n : Nat) (x y : Tensor) (h : ¬ strictOk x y) :
    assignStep add true n (some x) (some y) = .error (firstKind x y n) := by
  unfold strictOk at h
  by_cases h1 : x.shape = y.shape
  · by_cases h2 : x.device = y.device
    · by_cases h3 : x.dtype = y.dtype
      · exact absurd ⟨h1, h2, h3⟩ h
      · simp [assignStep, firstKind, h1, h2, h3]
    · simp [assignStep, firstKind, h1, h2]
  · simp [assignStep, firstKind, h1]

lemma assignGo_never_length (add strict : Bool) :
    ∀ (src tgt : List Tensor) (n : Nat),
      isLengthMismatch (assignGo add strict n (zipLongest src tgt)).2 = false := by
  intro src
  induction src with
  | nil =>
    intro tgt n
    cases tgt with
    | nil => rfl
    | cons y ys =>
      simp [zipLongest, assignGo, assignStep_none_left, isLengthMismatch]
  | cons x xs ih =>
    intro tgt n
    cases tgt with
    | nil =>
      simp [zipLongest, assignGo, assignStep_none_right, isLengthMismatch]
    | cons y ys =>
      simp only [zipLongest, assignGo]
      cases h : assignStep add strict n (some x) (some y) with
      | error e =>
        simp only [h]
        cases e with
        | lengthMismatch => exact absurd h (assignStep_some_ne_length add strict n x y)
        | shapeMismatch i => rfl
        | deviceMismatch i => rfl
        | dtypeMismatch i => rfl
        | noneAccess i => rfl
      | ok t' =>
        simpa [h] using ih ys (n + 1)

/-- C3 is a latent bug in the code: the length assert in `_assign` checks
`source is not None or target is not None`, which `zip_longest` always
satisfies, so no input can ever trigger the "Source and target length must
match exactly" assertion.  On unequal lengths the loop instead mutates the
common prefix and then raises an AttributeError/TypeError when the `None`
filler is used as a tensor (shown here in both directions, and with a
partially assigned prefix). -/
theorem assign_length_assert_unreachable :
    (∀ (src tgt : List Tensor) (add strict : Bool),
        isLengthMismatch (tensorAssign src tgt add strict).2 = false)
    ∧ tensorAssign [sampleT0] [] false false = ([], some (.noneAccess 0))
    ∧ tensorAssign [] [sampleT0] false false = ([sampleT0], some (.noneAccess 0))
    ∧ tensorAssign [sampleT0, sampleT1] [sampleT2] false false
        = ([⟨[2], 0, 0, [1, 2]⟩], some (.noneAccess 1)) := by
  refine ⟨fun src tgt add strict => assignGo_never_length add strict src tgt 0,
    by decide, by decide, by decide⟩

lemma assignGo_strict_eq (add : Bool) :
    ∀ (src tgt : List Tensor) (n : Nat), src.length = tgt.length →
      (assignGo add true n (zipLongest src tgt)).2
        = (firstMismatch src tgt).map (fun p => firstKind p.2.1 p.2.2 (n + p.1)) := by
  intro src
  induction src with
  | nil =>
    intro tgt n h
    cases tgt with
    | nil => rfl
    | cons y ys => simp at h
  | cons x xs ih =>
    intro tgt n h
    cases tgt with
    | nil => simp at h
    | cons y ys =>
      simp only [List.length_cons, Nat.add_right_cancel_iff] at h
      by_cases hok : strictOk x y
      · simp only [zipLongest, assignGo, assignStep_strict_ok add n x y hok,
          firstMismatch, if_pos hok]
        rw [ih ys (n + 1) h]
        cases hm : firstMismatch xs ys with
        | none => rfl
        | some p =>
          simp only [Option.map_some']
          rw [show n + 1 + p.1 = n + (p.1 + 1) from by omega]
      · simp only [zipLongest, assignGo, assignStep_strict_err add n x y hok,
          firstMismatch, if_neg hok, Option.map_some', Nat.add_zero]

lemma firstMismatch_eq_none_iff :
    ∀ (src tgt : List Tensor), src.length = tgt.length →
      (firstMismatch src tgt = none ↔ List.Forall₂ strictOk src tgt) := by
  intro src
  induction src with
  | nil =>
    intro tgt h
    cases tgt with
    | nil => simp [firstMismatch]
    | cons y ys => simp at h
  | cons x xs ih =>
    intro tgt h
    cases tgt with
    | nil => simp at h
    | cons y ys =>
      simp only [List.length_cons, Nat.add_right_cancel_iff] at h
      by_cases hok : strictOk x y
      · simp [firstMismatch, if_pos hok, List.forall₂_cons, hok, ih ys h]
      · simp [firstMismatch, if_neg hok, List.forall₂_cons, hok]

/-- C2: on equal-length sequences, `_assign` with `strict=true` succeeds
exactly when every paired element matches in shape, device and dtype; when
some pair mismatches, the raised error is the one produced by the first
failing check (shape, then device, then dtype) at the first mismatching
index. -/
theorem assign_strict_validation (src tgt : List Tensor) (add : Bool)
    (h : src.length = tgt.length) :
    ((tensorAssign src tgt add true).2 = none ↔ List.Forall₂ strictOk src tgt)
    ∧ (tensorAssign src tgt add true).2
        = (firstMismatch src tgt).map (fun p => firstKind p.2.1 p.2.2 p.1) := by
  have h2 : (tensorAssign src tgt add true).2
      = (firstMismatch src tgt).map (fun p => firstKind p.2.1 p.2.2 (0 + p.1)) :=
    assignGo_strict_eq add src tgt 0 h
  simp only [Nat.zero_add] at h2
  refine ⟨?_, h2⟩
  rw [h2, ← firstMismatch_eq_none_iff src tgt h]
  cases firstMismatch src tgt <;> simp

/-- Witness for C2 on concrete equal-length inputs. -/
theorem assign_strict_validation_witness :
    ((tensorAssign [sampleT0] [sampleT1] false true).2 = none
      ↔ List.Forall₂ strictOk [sampleT0] [sampleT1])
    ∧ (tensorAssign [sampleMasterF32] [sampleReplicaF64] false true).2
        = some (.deviceMismatch 0) :=
  ⟨(assign_strict_validation [sampleT0] [sampleT1] false rfl).1,
   ((assign_strict_validation [sampleMasterF32] [sampleReplicaF64] false rfl).2).trans
     (by decide)⟩

lemma assignGo_nonstrict (add : Bool) :
    ∀ (src tgt : List Tensor) (n : Nat), src.length = tgt.length →
      assignGo add false n (zipLongest src tgt)
        = (List.zipWith (fun t s => if add then addInto t s else overwriteInto t s) tgt src,
           none) := by
  intro src
  induction src with
  | nil =>
    intro tgt n h
    cases tgt with
    | nil => rfl
    | cons y ys => simp at h
  | cons x xs ih =>
    intro tgt n h
    cases tgt with
    | nil => simp at h
    | cons y ys =>
      simp only [List.length_cons, Nat.add_right_cancel_iff] at h
      simp only [zipLongest, assignGo, assignStep_nonstrict, List.zipWith_cons_cons]
      rw [ih ys (n + 1) h]

lemma zipWith_add_assoc :
    ∀ (xs ys zs : List ℚ),
      (xs.zipWith (· + ·) ys).zipWith (· + ·) zs
        = xs.zipWith (· + ·) (ys.zipWith (· + ·) zs) := by
  intro xs
  induction xs with
  | nil => intro ys zs; rfl
  | cons x xs ih =>
    intro ys zs
    cases ys with
    | nil => rfl
    | cons y ys =>
      cases zs with
      | nil => rfl
      | cons z zs => simp [List.zipWith_cons_cons, add_assoc, ih]

lemma zipWith_addInto_assoc :
    ∀ (t s1 s2 : List Tensor),
      List.zipWith addInto (List.zipWith addInto t s1) s2
        = List.zipWith addInto t (List.zipWith addInto s1 s2) := by
  intro t
  induction t with
  | nil => intro s1 s2; rfl
  | cons a t ih =>
    intro s1 s2
    cases s1 with
    | nil => rfl
    | cons b s1 =>
      cases s2 with
      | nil => rfl
      | cons c s2 =>
        simp only [List.zipWith_cons_cons, ih]
        congr 1
        simp [addInto, zipWith_add_assoc]

/-- C8: on equal-length matching sequences `_assign` succeeds, with `add=true`
turning each target into target + source elementwise; two successive
accumulation calls produce the elementwise sum of both contributions on top of
the original target; with `add=false` each target's values become exactly the
source's, discarding the prior values. -/
theorem assign_add_overwrite_semantics (s1 s2 t : List Tensor)
    (h1 : List.Forall₂ (fun a b => a.shape = b.shape) s1 t)
    (h2 : List.Forall₂ (fun a b => a.shape = b.shape) s2 t) :
    tensorAssign s1 t true false = (List.zipWith addInto t s1, none)
    ∧ tensorAssign s2 (tensorAssign s1 t true false).1 true false
        = (List.zipWith addInto t (List.zipWith addInto s1 s2), none)
    ∧ tensorAssign s1 t false false = (List.zipWith overwriteInto t s1, none)
    ∧ (∀ a b : Tensor, (addInto a b).data = a.data.zipWith (· + ·) b.data)
    ∧ (∀ a b : Tensor, (overwriteInto a b).data = b.data) := by
  have l1 : s1.length = t.length := h1.length_eq
  have l2 : s2.length = t.length := h2.length_eq
  have first : tensorAssign s1 t true false = (List.zipWith addInto t s1, none) := by
    have := assignGo_nonstrict true s1 t 0 l1
    simpa [tensorAssign] using this
  refine ⟨first, ?_, ?_, fun a b => rfl, fun a b => rfl⟩
  · rw [first]
    have hlen : s2.length = (List.zipWith addInto t s1).length := by
      rw [List.length_zipWith]
      omega
    have := assignGo_nonstrict true s2 (List.zipWith addInto t s1) 0 hlen
    simp only [tensorAssign]
    rw [this, ← zipWith_addInto_assoc]
    simp
  · have := assignGo_nonstrict false s1 t 0 l1
    simpa [tensorAssign] using this

/-- Witness for C8 at concrete equal-shape tensors. -/
theorem assign_add_overwrite_semantics_witness :
    tensorAssign [sampleT0] [sampleT2] true false
      = (List.zipWith addInto [sampleT2] [sampleT0], none) :=
  (assign_add_overwrite_semantics [sampleT0] [sampleT1] [sampleT2]
    (List.Forall₂.cons rfl List.Forall₂.nil)
    (List.Forall₂.cons rfl List.Forall₂.nil)).1

lemma sendCpuDataToDevice_cons (d : Nat) (x : Tensor) (xs : List Tensor) :
    sendCpuDataToDevice d (x :: xs) = { x with device := d } :: sendCpuDataToDevice d xs :=
  rfl

lemma zipWith_overwrite_moved (d : Nat) :
    ∀ (master replica : List Tensor),
      List.zipWith (fun t s => overwriteInto t s) replica (sendCpuDataToDevice d master)
        = List.zipWith (fun s t => overwriteInto t s) master replica := by
  intro master
  induction master with
  | nil => intro replica; cases replica <;> rfl
  | cons x xs ih =>
    intro replica
    cases replica with
    | nil => rfl
    | cons y ys =>
      rw [sendCpuDataToDevice_cons, List.zipWith_cons_cons, List.zipWith_cons_cons, ih ys]
      rfl

/-- C4 (amended): `send_params_to_device` copies the canonical parameter
values into the replica's parameters element-by-element as a one-directional
overwrite and succeeds; because it calls `_assign` with `strict` left `False`,
it performs no shape/device/dtype validation and raises no strict-assign
mismatch (a length mismatch only surfaces as the `None`-element error of the
underlying loop). -/
theorem send_params_overwrite (xlaDev : Nat) (master replica : List Tensor)
    (h : List.Forall₂ (fun a b => a.shape = b.shape) master replica) :
    (send_params_to_device xlaDev master replica).2 = none
    ∧ (send_params_to_device xlaDev master replica).1
        = List.zipWith (fun s t => overwriteInto t s) master replica := by
  have hlen : (sendCpuDataToDevice xlaDev master).length = replica.length := by
    simp [sendCpuDataToDevice, h.length_eq]
  have hgo := assignGo_nonstrict false (sendCpuDataToDevice xlaDev master) replica 0 hlen
  constructor
  · simp [send_params_to_device, tensorAssign, hgo]
  · simp only [send_params_to_device, tensorAssign, hgo]
    exact zipWith_overwrite_moved xlaDev master replica

/-- Witness for C4 (amended) at concrete same-shape tensors. -/
theorem send_params_overwrite_witness :
    (send_params_to_device 1 [sampleMasterF32] [sampleReplicaF64]).2 = none :=
  (send_params_overwrite 1 [sampleMasterF32] [sampleReplicaF64]
    (List.Forall₂.cons rfl List.Forall₂.nil)).1

lemma putItem_length (qs : List (List α)) (i : Nat) (x : α) :
    (putItem qs i x).length = qs.length := by
  simp [putItem]

lemma putItem_getD (x : α) :
    ∀ (qs : List (List α)) (i j : Nat), i < qs.length → j < qs.length →
      (putItem qs i x).getD j []
        = if i = j then qs.getD j [] ++ [x] else qs.getD j [] := by
  intro qs
  induction qs with
  | nil => intro i j hi _; simp at hi
  | cons q qs ih =>
    intro i j hi hj
    cases i with
    | zero =>
      cases j with
      | zero => rfl
      | succ j => simp [putItem]
    | succ i =>
      cases j with
      | zero => simp [putItem]
      | succ j =>
        have step : putItem (q :: qs) (i + 1) x = q :: putItem qs i x := rfl
        rw [step]
        have := ih i j (by simpa using hi) (by simpa using hj)
        simpa [Nat.succ_inj] using this

lemma getD_replicate_nil : ∀ (n j : Nat), (List.replicate n ([] : List α)).getD j [] = [] := by
  intro n
  induction n with
  | zero => intro j; cases j <;> rfl
  | succ n ih =>
    intro j
    cases j with
    | zero => rfl
    | succ j => exact ih j

lemma distributorGo (nprocs : Nat) (hn : 0 < nprocs) :
    ∀ (items : List α) (n : Nat) (qs : List (List α)), qs.length = nprocs →
      ∀ j, j < nprocs →
      ((items.enumFrom n).foldl (fun a p => putItem a (p.1 % nprocs) p.2) qs).getD j []
        = qs.getD j []
            ++ ((items.enumFrom n).filter (fun p => p.1 % nprocs == j)).map Prod.snd := by
  intro items
  induction items with
  | nil => intro n qs hq j hj; simp [List.enumFrom]
  | cons x xs ih =>
    intro n qs hq j hj
    rw [show (x :: xs).enumFrom n = (n, x) :: xs.enumFrom (n + 1) from rfl]
    rw [List.foldl_cons, List.filter_cons]
    rw [ih (n + 1) (putItem qs (n % nprocs) x) (by rw [putItem_length, hq]) j hj]
    rw [putItem_getD x qs (n % nprocs) j
      (by rw [hq]; exact Nat.mod_lt n hn) (by omega)]
    by_cases h : n % nprocs = j
    · simp [h]
    · simp [h]

/-- C1: the distributor places item index `i` into queue `i mod nprocs`: for
every queue `j`, the final contents of queue `j` are exactly the items whose
source index is congruent to `j`, in the source's emission order, with
nothing skipped or dropped. -/
theorem distributor_round_robin (nprocs : Nat) (hn : 0 < nprocs)
    (items : List α) (j : Nat) (hj : j < nprocs) :
    (distributorRun nprocs items).getD j []
      = (items.enum.filter (fun p => p.1 % nprocs == j)).map Prod.snd := by
  unfold distributorRun
  rw [show items.enum = items.enumFrom 0 from rfl]
  rw [distributorGo nprocs hn items 0 (List.replicate nprocs []) (by simp) j hj]
  rw [getD_replicate_nil]
  simp

/-- Witness for C1: with `nprocs = 2` and items `0,1,2,3`, queue 0 ends up
holding `[0, 2]` and queue 1 holding `[1, 3]`, in order. -/
theorem distributor_round_robin_witness :
    (distributorRun 2 [0, 1, 2, 3]).getD 0 [] = [0, 2]
    ∧ (distributorRun 2 [0, 1, 2, 3]).getD 1 [] = [1, 3] :=
  ⟨(distributor_round_robin 2 (by decide) [0, 1, 2, 3] 0 (by decide)).trans (by decide),
   (distributor_round_robin 2 (by decide) [0, 1, 2, 3] 1 (by decide)).trans (by decide)⟩

